import Mathlib

/-!
Verification development for the `top-python-libs` aggregation app
(`src/app.py`).  The Python source is shallowly embedded: each helper
function of `app.py` becomes a computable Lean definition over `String` /
`List Char`, with the network modelled as explicit response values passed
in by the caller.  Character classes model the ASCII fragment of Python's
regex classes (`\s`, `[A-Za-z0-9_\-.]`, `[0-9,]`), which is the fragment
exercised by the program's inputs.
-/

namespace TopPythonLibs

/-- ASCII whitespace as recognised by Python's `str.strip` and regex `\s`
(space, tab, newline, carriage return, vertical tab, form feed). -/
def isPyWs (c : Char) : Bool :=
  c = ' ' || c = '\t' || c = '\n' || c = '\r' || c = '\x0b' || c = '\x0c'

/-- Python `str.strip()` on a character list: drop whitespace from both ends. -/
def pyStrip (l : List Char) : List Char :=
  ((l.dropWhile isPyWs).reverse.dropWhile isPyWs).reverse

/-- The character class `[A-Za-z0-9_\-.]` of `app.py`'s direct
`owner/repo` regex. -/
def isAllowed (c : Char) : Bool :=
  ('A' ≤ c && c ≤ 'Z') || ('a' ≤ c && c ≤ 'z') || ('0' ≤ c && c ≤ '9') ||
    c = '_' || c = '-' || c = '.'

/-- ASCII lower-casing, as Python `str.lower()` acts on ASCII letters. -/
def toLowerAscii (c : Char) : Char :=
  if 'A' ≤ c && c ≤ 'Z' then Char.ofNat (c.toNat + 32) else c

/-- Lower-case a character list. -/
def lowerL (l : List Char) : List Char := l.map toLowerAscii

/-- Python's substring test `pat in s` (contiguous substring). -/
def substrIn (pat : List Char) : List Char → Bool
  | [] => pat.isEmpty
  | c :: rest => pat.isPrefixOf (c :: rest) || substrIn pat rest

/-- One attempt of the regex `github\.com\/([^/]+\/[^/]+)` anchored at the
head of `cs`; returns the capture group on success.  `[^/]+` is greedy and
disjoint from `/`, so the maximal-run reading is exact. -/
def tryMatchGh (cs : List Char) : Option (List Char) :=
  if ("github.com/".data).isPrefixOf cs then
    if ((cs.drop 11).takeWhile (fun c => c != '/')).isEmpty then none
    else
      match (cs.drop 11).dropWhile (fun c => c != '/') with
      | '/' :: cs2 =>
        if (cs2.takeWhile (fun c => c != '/')).isEmpty then none
        else some ((cs.drop 11).takeWhile (fun c => c != '/') ++
          '/' :: cs2.takeWhile (fun c => c != '/'))
      | _ => none
  else none

/-- Search of `github\.com\/([^/]+\/[^/]+)`: leftmost match wins;
positions where the attempt fails are skipped. -/
def ghSearch : List Char → Option (List Char)
  | [] => none
  | c :: rest =>
    match tryMatchGh (c :: rest) with
    | some g => some g
    | none => ghSearch rest

/-- Matcher for `^[A-Za-z0-9_\-\.]+\/[A-Za-z0-9_\-\.]+$` : one `/`
between two nonempty runs of allowed characters. -/
def matchDirect (cs : List Char) : Bool :=
  match cs.dropWhile isAllowed with
  | '/' :: rest =>
    !(cs.takeWhile isAllowed).isEmpty && !rest.isEmpty && rest.all isAllowed
  | _ => false

/-- Embedding of `app.py`'s `parse_github_repo` (lines 13-32): if the raw
string contains `github.com`, search the stripped string for
`github.com/<seg>/<seg>` and return the stripped capture; otherwise accept
a direct `owner/repo` match of the stripped string; otherwise `""`. -/
def parse_github_repo (s : String) : String :=
  match (if substrIn ("github.com".data) s.data then ghSearch (pyStrip s.data) else none) with
  | some g => String.mk (pyStrip g)
  | none => if matchDirect (pyStrip s.data) then String.mk (pyStrip s.data) else ""

/-- The `RepositoryId` invariant stated by the spec's data model: two
nonempty segments over the allowed character set joined by exactly one
`/`.  This is the same predicate as the direct-form regex. -/
def validRepoId (s : String) : Bool := matchDirect s.data

/-- The loop condition `url and "github.com" in url.lower()` of
`get_github_repo_from_pypi` / `get_github_repo_from_librariesio`. -/
def ghMarker (u : String) : Bool := substrIn ("github.com".data) (lowerL u.data)

/-- The `info` section of a PyPI JSON response, reduced to the fields
`app.py` reads; absent or null fields are the empty string / empty list,
matching the `get(..., default)` and `or {}` handling in the source. -/
structure PypiInfo where
  home_page : String
  project_urls : List (String × String)

/-- Outcome of `requests.get(pypi_url)` + `resp.json()`: `failure` covers a
network error or malformed JSON (the `except` path), `ok` a decoded
response with its HTTP status. -/
inductive PypiResponse where
  | failure
  | ok (status : Nat) (info : PypiInfo)

/-- The candidate-URL scan loop of `get_github_repo_from_pypi`
(lines 56-60): for each url, if it is truthy and contains the marker
case-insensitively, parse it and return a nonempty result; otherwise keep
scanning. -/
def scanUrls : List String → String
  | [] => ""
  | u :: rest =>
    if u ≠ "" ∧ ghMarker u = true then
      if parse_github_repo u ≠ "" then parse_github_repo u else scanUrls rest
    else scanUrls rest

/-- Embedding of `get_github_repo_from_pypi` (lines 37-65), parameterised
by the remote response: on status 200, scan `home_page` followed by the
`project_urls` values in mapping order; otherwise return `""`. -/
def get_github_repo_from_pypi : PypiResponse → String
  | .failure => ""
  | .ok status info =>
    if status = 200 then scanUrls (info.home_page :: info.project_urls.map Prod.snd)
    else ""

/-- Outcome of the Libraries.io request: `failure` for the `except` path,
`ok` carries the status and the `repository_url` field (`""` when the
field is absent or null, matching `data.get("repository_url", "")`). -/
inductive LibResponse where
  | failure
  | ok (status : Nat) (repository_url : String)

/-- Embedding of `get_github_repo_from_librariesio` (lines 100-121). -/
def get_github_repo_from_librariesio : LibResponse → String
  | .failure => ""
  | .ok status url =>
    if status = 200 then
      if url ≠ "" ∧ ghMarker url = true then
        if parse_github_repo url ≠ "" then parse_github_repo url else ""
      else ""
    else ""

/-- Truthiness of `st.secrets.get("LIBRARIES_IO_API_KEY")`: `None` (key
absent) and the empty string are falsy. -/
def credTruthy : Option String → Bool
  | none => false
  | some s => s != ""

/-- Embedding of `resolve_github_repo_from_package` (lines 124-134),
parameterised by the two remote responses and the configured credential:
the fallback is consulted exactly when the PyPI step returned `""` and the
credential is truthy. -/
def resolve_github_repo_from_package (pypi : PypiResponse) (cred : Option String)
    (lib : LibResponse) : String :=
  if get_github_repo_from_pypi pypi = "" ∧ credTruthy cred = true then
    get_github_repo_from_librariesio lib
  else get_github_repo_from_pypi pypi

/-- The character class `[0-9,]` of the dependents-count regexes. -/
def isDigitComma (c : Char) : Bool := ('0' ≤ c && c ≤ '9') || c = ','

/-- One attempt of the regex `[0-9,]+\s+Repositories` anchored at the head
of `cs`.  The three pieces have pairwise disjoint character classes, so
greedy maximal runs are exact. -/
def startsRepoPattern (cs : List Char) : Bool :=
  let r1 := cs.dropWhile isDigitComma
  let r2 := r1.dropWhile isPyWs
  !(cs.takeWhile isDigitComma).isEmpty && !(r1.takeWhile isPyWs).isEmpty &&
    ("Repositories".data).isPrefixOf r2

/-- Search of `[0-9,]+\s+Repositories` (via `re.compile(...).search`) on one text node. -/
def hasRepoPattern : List Char → Bool
  | [] => false
  | c :: rest => startsRepoPattern (c :: rest) || hasRepoPattern rest

/-- Model of `soup.find(string=re.compile(...))`: the first text node of the page
(in document order) whose text matches the pattern somewhere. -/
def findNode : List String → Option String
  | [] => none
  | s :: rest => if hasRepoPattern s.data then some s else findNode rest

/-- Model of `re.search(r"([0-9,]+)", node)`: the first maximal run of `[0-9,]`
characters in the node's text. -/
def firstDigitRun : List Char → Option (List Char)
  | [] => none
  | c :: rest =>
    if isDigitComma c then some (c :: rest.takeWhile isDigitComma)
    else firstDigitRun rest

/-- Decimal value of a digit list (every char is `0`-`9`). -/
def digitsToNat (l : List Char) : Nat :=
  l.foldl (fun n c => 10 * n + (c.toNat - 48)) 0

/-- The dependents page as the fetcher sees it: `failure` for the
`except` path (network error, parse crash), `ok` carries the HTTP status
and the page's text nodes in document order (the shallow model of the
BeautifulSoup parse). -/
inductive DepsPage where
  | failure
  | ok (status : Nat) (nodes : List String)

/-- Embedding of `get_repo_deps_via_github` (lines 72-96): non-200 status
gives 0; otherwise the first node matching `[0-9,]+\s+Repositories` is
located and its first `[0-9,]` run is parsed with commas stripped.  An
all-comma run makes `int("")` raise, which the `except` maps to 0. -/
def get_repo_deps_via_github : DepsPage → Int
  | .failure => 0
  | .ok status nodes =>
    if status ≠ 200 then 0
    else
      match findNode nodes with
      | none => 0
      | some s =>
        match firstDigitRun s.data with
        | none => 0
        | some run =>
          if (run.filter (fun c => c != ',')).isEmpty then 0
          else (digitsToNat (run.filter (fun c => c != ',')) : Int)

/-- Separator class of `re.split(r"[,\n\s]+", ...)`. -/
def isSep (c : Char) : Bool := c = ',' || isPyWs c

/-- The tokenizer of `aggregate_statistics` (lines 141-142): split on runs
of separators and drop empty pieces.  (`input_text.strip()` and the
per-piece `.strip()` are identities on the nonempty pieces, which contain
no separator characters.) -/
def tokenize (s : String) : List String :=
  ((s.data.foldr
      (fun c acc =>
        if isSep c then [] :: acc
        else
          match acc with
          | [] => [[c]]
          | r :: rs => (c :: r) :: rs)
      [[]]).filter (fun r => !r.isEmpty)).map String.mk

/-- One row of the result table, with `none` as the placeholder used for
unresolvable tokens (Python `None`). -/
structure ResultRow where
  name : String
  deps : Option Int
  repoLink : Option String
  depsLink : Option String
deriving DecidableEq

/-- The two remote operations `aggregate_statistics` delegates to, passed
in as oracles: `resolve_github_repo_from_package` and
`get_repo_deps_via_github` (both always return, never raise). -/
structure AggEnv where
  resolvePkg : String → String
  fetchDeps : String → Int

/-- Lines 153-156: parse the token directly, else resolve it as a package
name. -/
def resolveToken (env : AggEnv) (t : String) : String :=
  if parse_github_repo t = "" then env.resolvePkg t else parse_github_repo t

/-- The row built for a resolved repository id (lines 163-183). -/
def mkRow (env : AggEnv) (t g : String) : ResultRow :=
  ⟨t, some (env.fetchDeps g), some ("https://github.com/" ++ g),
    some ("https://github.com/" ++ g ++ "/network/dependents")⟩

/-- The placeholder row for an unresolvable token (lines 169-183). -/
def phRow (t : String) : ResultRow :=
  ⟨t, none, none, none⟩

/-- The main loop of `aggregate_statistics` (lines 150-183): `seen` is the
`added_gh_repos` set; a token whose id is already seen is skipped, a
resolved token adds its id and a full row, an unresolvable token adds a
placeholder row. -/
def aggLoop (env : AggEnv) : List String → List String → List ResultRow
  | _, [] => []
  | seen, t :: rest =>
    if resolveToken env t ∈ seen then aggLoop env seen rest
    else if resolveToken env t = "" then phRow t :: aggLoop env seen rest
    else mkRow env t (resolveToken env t) :: aggLoop env (resolveToken env t :: seen) rest

/-- Stable ascending insertion by an integer key: an element is placed
before the first element of greater-or-equal key. -/
def insertAsc (key : α → Int) (x : α) : List α → List α
  | [] => [x]
  | y :: ys => if key x ≤ key y then x :: y :: ys else y :: insertAsc key x ys

/-- Stable ascending insertion sort (the stable `argsort` kernel of the
`nargsort` model below). -/
def sortAsc (key : α → Int) : List α → List α
  | [] => []
  | x :: xs => insertAsc key x (sortAsc key xs)

/-- Stable descending insertion: an element is placed before the first
element of smaller-or-equal key (equal keys keep insertion-order). -/
def insertDesc (key : α → Int) (x : α) : List α → List α
  | [] => [x]
  | y :: ys => if key y ≤ key x then x :: y :: ys else y :: insertDesc key x ys

/-- Stable descending insertion sort. -/
def sortDesc (key : α → Int) : List α → List α
  | [] => []
  | x :: xs => insertDesc key x (sortDesc key xs)

/-- Ascending insertion that places an element after all equal keys;
auxiliary device for relating the reversed sort to the descending sort. -/
def insertAscLast (key : α → Int) (x : α) : List α → List α
  | [] => [x]
  | y :: ys => if key x < key y then x :: y :: ys else y :: insertAscLast key x ys

/-! ### numpy argsort kernel

`df.sort_values(..., kind='quicksort')` (the default) argsorts the
non-null block with numpy's introsort (`npysort` `aquicksort`): segments
of more than `SMALL_QUICKSORT = 15` entries are partitioned by a
median-of-three Hoare partition, the larger side is stacked together with
the decremented depth budget (initially `2 * floor(log2 n)`), a segment
whose budget went negative is heapsorted, and small segments get a single
stable insertion pass.  The functions below translate that algorithm;
loops carry a fuel argument that over-approximates their iteration count
(scans are bounded by the array size, sift indices double, and each outer
round pops or strictly shrinks a segment), so the zero-fuel fallbacks are
never reached. -/

/-- Swap two positions of the index array (`INTP_SWAP`). -/
def aswap (a : Array Nat) (i j : Nat) : Array Nat :=
  let x := a.getD i 0
  let y := a.getD j 0
  (a.setD i y).setD j x

/-- Key of the index stored at position `i` of the index array
(`v[*p]` in the source). -/
def kv (v : Array Int) (a : Array Nat) (i : Nat) : Int :=
  v.getD (a.getD i 0) 0

/-- Upward scan `do { ++pi; } while (v[*pi] < vp)`: called at `pi + 1`,
stops at the first position whose key is not below the pivot. -/
def acScanUp (v : Array Int) (a : Array Nat) (vp : Int) : Nat → Nat → Nat
  | 0, i => i
  | fuel + 1, i => if kv v a i < vp then acScanUp v a vp fuel (i + 1) else i

/-- Downward scan `do { --pj; } while (vp < v[*pj])`: called at `pj - 1`,
stops at the first position whose key is not above the pivot. -/
def acScanDown (v : Array Int) (a : Array Nat) (vp : Int) : Nat → Nat → Nat
  | 0, j => j
  | fuel + 1, j => if vp < kv v a j then acScanDown v a vp fuel (j - 1) else j

/-- The swap loop of the Hoare partition: scan up, scan down, stop when
the scans cross, otherwise swap and continue. -/
def acPartLoop (v : Array Int) (vp : Int) : Nat → Array Nat → Nat → Nat →
    Array Nat × Nat
  | 0, a, pi, _ => (a, pi)
  | fuel + 1, a, pi, pj =>
    let pi2 := acScanUp v a vp (v.size + 2) (pi + 1)
    let pj2 := acScanDown v a vp (v.size + 2) (pj - 1)
    if pi2 ≥ pj2 then (a, pi2)
    else acPartLoop v vp fuel (aswap a pi2 pj2) pi2 pj2

/-- One partition of `[pl, pr]` exactly as in the source: median-of-three
compare-swaps, pivot parked at `pr - 1`, symmetric strict scans from both
ends, final pivot placement at the crossing point; returns the updated
index array and the pivot's final position. -/
def acPartition (v : Array Int) (a : Array Nat) (pl pr : Nat) :
    Array Nat × Nat :=
  let pm := pl + (pr - pl) / 2
  let a1 := if kv v a pm < kv v a pl then aswap a pm pl else a
  let a2 := if kv v a1 pr < kv v a1 pm then aswap a1 pr pm else a1
  let a3 := if kv v a2 pm < kv v a2 pl then aswap a2 pm pl else a2
  let vp := kv v a3 pm
  let a4 := aswap a3 pm (pr - 1)
  match acPartLoop v vp (v.size + 2) a4 pl (pr - 1) with
  | (a5, pi) => (aswap a5 pi (pr - 1), pi)

/-- One-based read into the heap segment (`a = tosort - 1` in the
source). -/
def get1 (a : Array Nat) (base i : Nat) : Nat := a.getD (base + i - 1) 0

/-- One-based write into the heap segment. -/
def set1 (a : Array Nat) (base i : Nat) (x : Nat) : Array Nat :=
  a.setD (base + i - 1) x

/-- The sift loop shared by both phases of numpy's `aheapsort`. -/
def heapSiftLoop (v : Array Int) (base n : Nat) (tmpv : Int) :
    Nat → Array Nat → Nat → Nat → Array Nat × Nat
  | 0, a, i, _ => (a, i)
  | fuel + 1, a, i, j =>
    if j ≤ n then
      let j2 := if j < n ∧ v.getD (get1 a base j) 0 < v.getD (get1 a base (j + 1)) 0
        then j + 1 else j
      if tmpv < v.getD (get1 a base j2) 0 then
        heapSiftLoop v base n tmpv fuel (set1 a base i (get1 a base j2)) j2 (j2 + j2)
      else (a, i)
    else (a, i)

/-- numpy's `aheapsort` on the `n`-entry segment starting at `base`:
heapify from `n / 2` down to 1, then repeatedly move the maximum to the
end and re-sift (one-based heap indexing as in the source). -/
def aheapsortSeg (v : Array Int) (a : Array Nat) (base n : Nat) : Array Nat :=
  let built := (List.range (n / 2)).foldl
    (fun acc k =>
      let l := n / 2 - k
      let tmp := get1 acc base l
      match heapSiftLoop v base n (v.getD tmp 0) (n + 2) acc l (l + l) with
      | (acc2, i) => set1 acc2 base i tmp)
    a
  (List.range (n - 1)).foldl
    (fun acc k =>
      let m := n - k
      let tmp := get1 acc base m
      let acc1 := set1 acc base m (get1 acc base 1)
      match heapSiftLoop v base (m - 1) (v.getD tmp 0) (m + 2) acc1 1 2 with
      | (acc2, i) => set1 acc2 base i tmp)
    built

/-- The shift loop of the small-segment insertion sort: entries above the
inserted key move one slot right, strictly-greater keys only (stable). -/
def ainsertShift (v : Array Int) (pl : Nat) (vp : Int) (vi : Nat) :
    Nat → Array Nat → Nat → Array Nat
  | 0, a, pj => a.setD pj vi
  | fuel + 1, a, pj =>
    if pl < pj ∧ vp < kv v a (pj - 1) then
      ainsertShift v pl vp vi fuel (a.setD pj (a.getD (pj - 1) 0)) (pj - 1)
    else a.setD pj vi

/-- The insertion sort numpy's introsort applies to a segment of at most
`SMALL_QUICKSORT + 1` entries. -/
def ainsertSeg (v : Array Int) (a : Array Nat) (pl pr : Nat) : Array Nat :=
  (List.range' (pl + 1) (pr - pl)).foldl
    (fun acc pi =>
      let vi := acc.getD pi 0
      ainsertShift v pl (v.getD vi 0) vi (acc.size + 2) acc pi)
    a

/-- The partition rounds `while ((pr - pl) > SMALL_QUICKSORT)`: each
round partitions the current segment, pushes the larger side with the
decremented depth budget (`*psdepth++ = --cdepth`) and continues on the
smaller side. -/
def qsPartRounds (v : Array Int) :
    Nat → Array Nat → Nat → Nat → Int → List (Nat × Nat × Int) →
      Array Nat × Nat × Nat × List (Nat × Nat × Int)
  | 0, a, pl, pr, _, stack => (a, pl, pr, stack)
  | fuel + 1, a, pl, pr, cdepth, stack =>
    if pr - pl > 15 then
      match acPartition v a pl pr with
      | (a2, pi) =>
        if pi - pl < pr - pi then
          qsPartRounds v fuel a2 pl (pi - 1) (cdepth - 1)
            ((pi + 1, pr, cdepth - 1) :: stack)
        else
          qsPartRounds v fuel a2 (pi + 1) pr (cdepth - 1)
            ((pl, pi - 1, cdepth - 1) :: stack)
    else (a, pl, pr, stack)

/-- The outer `for (;;)` of the introsort: a popped segment whose stored
depth budget is negative is heapsorted; otherwise it is partitioned down
to small size and insertion-sorted; then the next stacked segment (with
its stored budget) is popped. -/
def qsOuter (v : Array Int) :
    Nat → Array Nat → Nat → Nat → Int → List (Nat × Nat × Int) → Array Nat
  | 0, a, _, _, _, _ => a
  | fuel + 1, a, pl, pr, cdepth, stack =>
    if cdepth < 0 then
      let a2 := aheapsortSeg v a pl (pr + 1 - pl)
      match stack with
      | [] => a2
      | (l2, r2, d2) :: st => qsOuter v fuel a2 l2 r2 d2 st
    else
      match qsPartRounds v (v.size + 2) a pl pr cdepth stack with
      | (a2, pl2, pr2, stack2) =>
        let a3 := ainsertSeg v a2 pl2 pr2
        match stack2 with
        | [] => a3
        | (l2, r2, d2) :: st => qsOuter v fuel a3 l2 r2 d2 st

/-- Position of the most significant bit, `npy_get_msb`
(`floor(log2 n)`); the fuel argument makes the halving recursion
structural. -/
def msbFuel : Nat → Nat → Nat
  | 0, _ => 0
  | fuel + 1, n => if n ≤ 1 then 0 else msbFuel fuel (n / 2) + 1

/-- numpy `argsort(kind='quicksort')` of the key array `v`: the generic
`aquicksort` of `npysort`, which pandas' `nargsort` invokes on the
object-dtype column — introsort over the index array `[0, ..., n-1]`
with `SMALL_QUICKSORT = 15` and depth budget `2 * npy_get_msb n`. -/
def npyAargsort (v : Array Int) : Array Nat :=
  qsOuter v (2 * v.size + 8) (Array.range v.size) 0 (v.size - 1)
    (2 * (msbFuel v.size v.size : Int)) []

instance : Inhabited ResultRow := ⟨⟨"", none, none, none⟩⟩

/-- Sort key of a result row: its dependents count.  Only rows with a
known count are ever passed to the sort kernels, so the default is inert. -/
def rowKey (r : ResultRow) : Int := r.deps.getD 0

/-- Rows whose count is known (`~isna` in `nargsort`). -/
def knownRows (rows : List ResultRow) : List ResultRow :=
  rows.filter (fun r => r.deps.isSome)

/-- Rows whose count is the `None` placeholder (`isna` in `nargsort`). -/
def unknownRows (rows : List ResultRow) : List ResultRow :=
  rows.filter (fun r => r.deps.isNone)

/-- The ascending argsort kernel `nargsort` applies to the (reversed)
non-null block.  Up to 16 entries, `(pr - pl) > SMALL_QUICKSORT` fails at
once and numpy performs a single stable insertion pass, whose result is
the stable ascending order `sortAsc`; above 16 entries the partition path
of the introsort runs (`npyAargsort`), which is not stable. -/
def npyArgsortKernelAsc (key : ResultRow → Int) (l : List ResultRow) :
    List ResultRow :=
  if l.length ≤ 16 then sortAsc key l
  else (npyAargsort ((l.map key).toArray)).toList.map (fun i => l.getD i default)

/-- Row order produced by
`df.sort_values(by="Number of dependents", ascending=False)`, following
pandas' `nargsort`: the non-null block is reversed, argsorted ascending
with numpy's default quicksort kernel (`npyArgsortKernelAsc`), and the
indexer reversed back; null rows are appended in original order
(`na_position="last"`).  Ties keep original input order exactly when the
kernel is in its stable insertion regime (at most 16 non-null rows). -/
def sortRowsDesc (rows : List ResultRow) : List ResultRow :=
  (npyArgsortKernelAsc rowKey (knownRows rows).reverse).reverse ++
    unknownRows rows

/-- Modelled from the spec: the ResultTable order stated by the data
model — known-count rows sorted by count descending with ties kept in
original input order (stable sort), unknown-count rows after them in
original order.  To be compared with `sortRowsDesc`, which follows the
source's `nargsort` mechanics. -/
def specSortRows (rows : List ResultRow) : List ResultRow :=
  sortDesc rowKey (knownRows rows) ++ unknownRows rows

/-- Model of `pd.DataFrame(results).sort_values(by="Number of dependents", ...)`:
on an empty row list the DataFrame has no columns at all, so pandas
raises `KeyError` for the missing sort column; otherwise the rows are
reordered as `sortRowsDesc`. -/
def sort_values_desc (rows : List ResultRow) : Except String (List ResultRow) :=
  if rows.isEmpty then Except.error "KeyError: Number of dependents"
  else Except.ok (sortRowsDesc rows)

/-- Embedding of `aggregate_statistics` (lines 138-192): tokenize, run the
main loop with an empty seen-set, build the DataFrame and sort it.  The
result is `Except` because the final sort raises on an empty row list. -/
def aggregate_statistics (env : AggEnv) (input : String) :
    Except String (List ResultRow) :=
  sort_values_desc (aggLoop env [] (tokenize input))

/-- Row built by the Aggregator for a directly-parsed `<owner>/r` token
whose dependents count is 5 (the shape used by the tie-instability
example). -/
def tieRow (o : String) : ResultRow :=
  ⟨o ++ "/r", some 5, some ("https://github.com/" ++ o ++ "/r"),
    some ("https://github.com/" ++ o ++ "/r/network/dependents")⟩

/-- The 17 token owners of the tie-instability example, in input order. -/
def tieNames : List String :=
  ["a01", "a02", "a03", "a04", "a05", "a06", "a07", "a08", "a09", "a10",
   "a11", "a12", "a13", "a14", "a15", "a16", "a17"]

/-- The order in which the quicksort argsort path (via `nargsort`)
actually emits 17 tied rows: the single median-of-three partition of the
all-equal segment reorders the tied entries. -/
def tieNamesPermuted : List String :=
  ["a01", "a10", "a16", "a15", "a14", "a13", "a12", "a11", "a09", "a02",
   "a08", "a07", "a06", "a05", "a04", "a03", "a17"]

/-! ### Sorting lemmas

The bridge between the `nargsort` mechanics (`sortRowsDesc`: reverse,
stable ascending sort, reverse, nulls appended) and the spec's wording
(`specSortRows`: stable descending sort, nulls appended). -/

theorem mem_insertAsc {α : Type _} (key : α → Int) (x : α) (l : List α) (z : α) :
    z ∈ insertAsc key x l ↔ z = x ∨ z ∈ l := by
  induction l with
  | nil => simp [insertAsc]
  | cons y ys ih =>
    simp only [insertAsc]
    split
    · simp [List.mem_cons]
    · simp only [List.mem_cons, ih]
      tauto

theorem pairwise_insertAsc {α : Type _} (key : α → Int) (x : α) {l : List α}
    (h : l.Pairwise (fun a b => key a ≤ key b)) :
    (insertAsc key x l).Pairwise (fun a b => key a ≤ key b) := by
  induction l with
  | nil => simp [insertAsc]
  | cons y ys ih =>
    rcases List.pairwise_cons.mp h with ⟨hy, hys⟩
    simp only [insertAsc]
    split
    case isTrue hxy =>
      refine List.pairwise_cons.mpr ⟨?_, h⟩
      intro z hz
      rcases List.mem_cons.mp hz with rfl | hz
      · exact hxy
      · exact le_trans hxy (hy z hz)
    case isFalse hxy =>
      refine List.pairwise_cons.mpr ⟨?_, ih hys⟩
      intro z hz
      rcases (mem_insertAsc key x ys z).mp hz with rfl | hz
      · exact le_of_not_le hxy
      · exact hy z hz

theorem pairwise_sortAsc {α : Type _} (key : α → Int) (l : List α) :
    (sortAsc key l).Pairwise (fun a b => key a ≤ key b) := by
  induction l with
  | nil => simp [sortAsc]
  | cons x l ih => exact pairwise_insertAsc key x ih

theorem insertAsc_insertAscLast {α : Type _} (key : α → Int) (y x : α) (l : List α) :
    insertAsc key y (insertAscLast key x l) = insertAscLast key x (insertAsc key y l) := by
  induction l with
  | nil =>
    simp only [insertAscLast, insertAsc]
    split_ifs <;> first | rfl | (exfalso; omega)
  | cons z l ih =>
    simp only [insertAscLast, insertAsc]
    split_ifs <;>
      simp only [insertAscLast, insertAsc, ih] <;>
      split_ifs <;>
      first | rfl | (exfalso; omega)

theorem sortAsc_append_singleton {α : Type _} (key : α → Int) (l : List α) (x : α) :
    sortAsc key (l ++ [x]) = insertAscLast key x (sortAsc key l) := by
  induction l with
  | nil => simp [sortAsc, insertAsc, insertAscLast]
  | cons y l ih =>
    simp only [List.cons_append, sortAsc, List.append_eq]
    rw [ih]
    exact insertAsc_insertAscLast key y x (sortAsc key l)

theorem insertDesc_of_forall_lt {α : Type _} (key : α → Int) (x : α) {l : List α}
    (h : ∀ z ∈ l, key x < key z) : insertDesc key x l = l ++ [x] := by
  induction l with
  | nil => rfl
  | cons z l ih =>
    have hz := h z (by simp)
    simp only [insertDesc]
    rw [if_neg (by omega)]
    rw [ih (fun w hw => h w (by simp [hw]))]
    rfl

theorem insertDesc_append_singleton {α : Type _} (key : α → Int) (x y : α) (l : List α)
    (h : key y ≤ key x) : insertDesc key x (l ++ [y]) = insertDesc key x l ++ [y] := by
  induction l with
  | nil =>
    simp only [List.nil_append, insertDesc]
    rw [if_pos h]
    rfl
  | cons z l ih =>
    simp only [List.cons_append, insertDesc, List.append_eq]
    split_ifs
    · rfl
    · rw [ih]
      rfl

theorem reverse_insertAscLast {α : Type _} (key : α → Int) (x : α) {m : List α}
    (hm : m.Pairwise (fun a b => key a ≤ key b)) :
    (insertAscLast key x m).reverse = insertDesc key x m.reverse := by
  induction m with
  | nil => rfl
  | cons y m ih =>
    rcases List.pairwise_cons.mp hm with ⟨hy, hm2⟩
    simp only [insertAscLast]
    split_ifs with h
    · have hall : ∀ z ∈ (y :: m).reverse, key x < key z := by
        intro z hz
        rcases List.mem_cons.mp (List.mem_reverse.mp hz) with rfl | hz
        · exact h
        · exact lt_of_lt_of_le h (hy z hz)
      calc (x :: y :: m).reverse = (y :: m).reverse ++ [x] := by rw [List.reverse_cons]
        _ = insertDesc key x (y :: m).reverse := (insertDesc_of_forall_lt key x hall).symm
    · rw [List.reverse_cons, ih hm2, List.reverse_cons,
        insertDesc_append_singleton key x y m.reverse (by omega)]

theorem sortAsc_reverse_eq_sortDesc {α : Type _} (key : α → Int) (l : List α) :
    (sortAsc key l.reverse).reverse = sortDesc key l := by
  induction l with
  | nil => rfl
  | cons x l ih =>
    rw [List.reverse_cons, sortAsc_append_singleton,
      reverse_insertAscLast key x (pairwise_sortAsc key l.reverse), ih]
    rfl

theorem sortRowsDesc_eq_specSortRows_of_small {rows : List ResultRow}
    (h : (knownRows rows).length ≤ 16) :
    sortRowsDesc rows = specSortRows rows := by
  unfold sortRowsDesc specSortRows npyArgsortKernelAsc
  rw [if_pos (by simpa using h), sortAsc_reverse_eq_sortDesc]

/-! ### Parser lemmas

Structure of nonempty `parse_github_repo` results. -/

theorem count_dropWhile_slash (p : Char → Bool) (hp : p '/' = false) (l : List Char) :
    ((l.dropWhile p).count '/') = l.count '/' := by
  induction l with
  | nil => rfl
  | cons c l ih =>
    rw [List.dropWhile_cons]
    split_ifs with hc
    · have hne : '/' ≠ c := fun hEq => by rw [hEq, hc] at hp; cases hp
      rw [ih, List.count_cons_of_ne hne]
    · rfl

theorem count_slash_pyStrip (l : List Char) : ((pyStrip l).count '/') = l.count '/' := by
  unfold pyStrip
  calc (((l.dropWhile isPyWs).reverse.dropWhile isPyWs).reverse.count '/')
      = ((l.dropWhile isPyWs).reverse.dropWhile isPyWs).count '/' :=
        (List.reverse_perm _).count_eq '/'
    _ = ((l.dropWhile isPyWs).reverse).count '/' :=
        count_dropWhile_slash isPyWs (by decide) _
    _ = (l.dropWhile isPyWs).count '/' := (List.reverse_perm _).count_eq '/'
    _ = l.count '/' := count_dropWhile_slash isPyWs (by decide) l

theorem count_slash_single {a b : List Char} (ha : ∀ c ∈ a, c ≠ '/')
    (hb : ∀ c ∈ b, c ≠ '/') : ((a ++ '/' :: b).count '/') = 1 := by
  have ha0 : a.count '/' = 0 := by
    rw [List.count_eq_zero]
    intro h
    exact ha _ h rfl
  have hb0 : b.count '/' = 0 := by
    rw [List.count_eq_zero]
    intro h
    exact hb _ h rfl
  rw [List.count_append, List.count_cons_self, ha0, hb0]

theorem tryMatchGh_shape {cs g : List Char} (h : tryMatchGh cs = some g) :
    ∃ s1 s2, g = s1 ++ '/' :: s2 ∧ (∀ c ∈ s1, c ≠ '/') ∧ (∀ c ∈ s2, c ≠ '/') := by
  unfold tryMatchGh at h
  split at h
  · split at h
    · simp at h
    · split at h
      · rename_i cs2 heq
        split at h
        · simp at h
        · injection h with h2
          refine ⟨_, _, h2.symm, ?_, ?_⟩
          · intro c hc
            have := List.mem_takeWhile_imp hc
            simpa using this
          · intro c hc
            have := List.mem_takeWhile_imp hc
            simpa using this
      · simp at h
  · simp at h

theorem ghSearch_shape {cs g : List Char} (h : ghSearch cs = some g) :
    ∃ s1 s2, g = s1 ++ '/' :: s2 ∧ (∀ c ∈ s1, c ≠ '/') ∧ (∀ c ∈ s2, c ≠ '/') := by
  induction cs with
  | nil => simp [ghSearch] at h
  | cons c rest ih =>
    rw [ghSearch] at h
    split at h
    · rename_i g2 heq
      injection h with h2
      subst h2
      exact tryMatchGh_shape heq
    · exact ih h

theorem matchDirect_shape {cs : List Char} (h : matchDirect cs = true) :
    ∃ a b, cs = a ++ '/' :: b ∧ (∀ c ∈ a, isAllowed c = true) ∧
      (∀ c ∈ b, isAllowed c = true) := by
  unfold matchDirect at h
  split at h
  · rename_i rest heq
    simp only [Bool.and_eq_true] at h
    have hsplit : cs.takeWhile isAllowed ++ cs.dropWhile isAllowed = cs :=
      List.takeWhile_append_dropWhile isAllowed cs
    refine ⟨cs.takeWhile isAllowed, rest, ?_, ?_, ?_⟩
    · have h2 : cs.takeWhile isAllowed ++ cs.dropWhile isAllowed =
          cs.takeWhile isAllowed ++ '/' :: rest := by rw [heq]
      exact hsplit.symm.trans h2
    · intro c hc
      exact List.mem_takeWhile_imp hc
    · intro c hc
      exact List.all_eq_true.mp h.2 c hc
  · cases h

theorem isAllowed_ne_slash {c : Char} (h : isAllowed c = true) : c ≠ '/' := by
  intro hc
  subst hc
  exact absurd h (by decide)

/-! ### Fetcher and scan-loop lemmas -/

theorem findNode_eq_none {nodes : List String}
    (h : ∀ s ∈ nodes, hasRepoPattern s.data = false) : findNode nodes = none := by
  induction nodes with
  | nil => rfl
  | cons s rest ih =>
    unfold findNode
    rw [if_neg (by simp [h s (by simp)])]
    exact ih fun v hv => h v (by simp [hv])

theorem findNode_some {nodes : List String} {s : String} (h : findNode nodes = some s) :
    s ∈ nodes ∧ hasRepoPattern s.data = true := by
  induction nodes with
  | nil => simp [findNode] at h
  | cons v rest ih =>
    unfold findNode at h
    split_ifs at h with hv
    · injection h with h2
      subst h2
      exact ⟨by simp, hv⟩
    · obtain ⟨h1, h2⟩ := ih h
      exact ⟨by simp [h1], h2⟩

theorem scanUrls_append_skip {pre rest : List String}
    (h : ∀ u ∈ pre, ¬(u ≠ "" ∧ ghMarker u = true)) :
    scanUrls (pre ++ rest) = scanUrls rest := by
  induction pre with
  | nil => rfl
  | cons u pre ih =>
    simp only [List.cons_append, scanUrls]
    rw [if_neg (h u (by simp))]
    exact ih fun v hv => h v (by simp [hv])

/-- Common shape of the direct-form branch of `parse_github_repo`: a
nonempty result contains exactly one slash. -/
theorem direct_branch_count {cs : List Char}
    (h : (if matchDirect cs then String.mk cs else "") ≠ "") :
    (((if matchDirect cs then String.mk cs else "") : String).data).count '/' = 1 := by
  by_cases hm : matchDirect cs = true
  · rw [if_pos hm]
    obtain ⟨a, b, hab, ha, hb⟩ := matchDirect_shape hm
    show (cs.count '/') = 1
    rw [hab]
    exact count_slash_single (fun c hc => isAllowed_ne_slash (ha c hc))
      (fun c hc => isAllowed_ne_slash (hb c hc))
  · rw [if_neg hm] at h
    exact absurd rfl h

/-! ### Claim theorems -/

/-- C9 (confirmed): the four concrete equations of the spec's testable
properties for the Identifier Parser hold of `parse_github_repo`: the two
URL forms normalise to `numpy/numpy` (trailing path ignored), a bare name
is rejected, and a direct `owner/repo` form passes through unchanged. -/
theorem parse_github_repo_concrete_equations :
    parse_github_repo "https://github.com/numpy/numpy" = "numpy/numpy" ∧
    parse_github_repo "github.com/numpy/numpy/" = "numpy/numpy" ∧
    parse_github_repo "numpy" = "" ∧
    parse_github_repo "pandas-dev/pandas" = "pandas-dev/pandas" :=
  ⟨rfl, rfl, rfl, rfl⟩

/-- C3 counterexample (claim false as stated): the hosting-domain branch
extracts `[^/]+` segments, not allowed-charset segments, so
`parse_github_repo "github.com/a b/c"` returns `"a b/c"`, whose first
segment contains a space — the `RepositoryId` invariant fails on it. -/
theorem parse_github_repo_invariant_counterexample :
    parse_github_repo "github.com/a b/c" = "a b/c" ∧ validRepoId "a b/c" = false :=
  ⟨rfl, rfl⟩

/-- C3 amended (proved): every nonempty `parse_github_repo` result
contains exactly one `/` (two `/`-free segments); only direct-form results
are additionally guaranteed nonempty allowed-charset segments, while the
URL branch can emit segments with characters outside the set or segments
emptied by whitespace stripping. -/
theorem parse_github_repo_nonempty_single_slash (s : String)
    (h : parse_github_repo s ≠ "") :
    ((parse_github_repo s).data).count '/' = 1 := by
  unfold parse_github_repo at h ⊢
  by_cases hsub : substrIn ("github.com".data) s.data = true
  · rw [if_pos hsub] at h ⊢
    revert h
    cases hgs : ghSearch (pyStrip s.data) with
    | some g =>
      intro _
      obtain ⟨s1, s2, hg, h1, h2⟩ := ghSearch_shape hgs
      subst hg
      show ((pyStrip (s1 ++ '/' :: s2)).count '/') = 1
      rw [count_slash_pyStrip]
      exact count_slash_single h1 h2
    | none =>
      intro h
      exact direct_branch_count h
  · rw [if_neg hsub] at h ⊢
    exact direct_branch_count h

/-- C3 witness: the amended theorem applied at the concrete input
`"numpy/numpy"`. -/
theorem parse_github_repo_nonempty_single_slash_witness :
    ((parse_github_repo "numpy/numpy").data).count '/' = 1 :=
  parse_github_repo_nonempty_single_slash "numpy/numpy" (by decide)

/-- C1 (code bug at the failing input): on empty or separator-only input
the token list is empty, `pd.DataFrame([])` has no columns, and
`sort_values` raises `KeyError` instead of returning a table, contrary to
the never-raise policy. -/
theorem aggregate_errors_on_empty_and_separator_only_input (env : AggEnv) :
    aggregate_statistics env "" = Except.error "KeyError: Number of dependents" ∧
    aggregate_statistics env " , ,\n " = Except.error "KeyError: Number of dependents" :=
  ⟨rfl, rfl⟩

/-- C6 counterexample (claim false as stated): the node-search regex
`[0-9,]+\s+Repositories` carries no IGNORECASE flag (the flag in the
source is on the digit-group search only), so a page whose phrase is
lower-case yields 0, not the parsed integer. -/
theorem fetch_deps_case_insensitive_counterexample :
    get_repo_deps_via_github (DepsPage.ok 200 ["1,234 repositories"]) = 0 ∧
    (0 : Int) ≠ 1234 :=
  ⟨rfl, by decide⟩

/-- C6 amended (proved): the phrase search is case-sensitive — the exact
spelling `Repositories` is required; the same page text with the exact
casing parses to 1234 while the lower-case variant returns 0. -/
theorem fetch_deps_case_sensitive_behavior :
    get_repo_deps_via_github (DepsPage.ok 200 ["1,234 repositories"]) = 0 ∧
    get_repo_deps_via_github (DepsPage.ok 200 ["1,234 Repositories"]) = 1234 :=
  ⟨rfl, rfl⟩

/-- C5 counterexample (claim false as stated): the digit-group regex
`([0-9,]+)` is searched over the whole matched text node, so the first
digit run of the node wins even when it is not the one adjacent to
`Repositories`: a node reading `5 Packages 1,234 Repositories` contains
the phrase `1,234 Repositories` yet the fetcher returns 5. -/
theorem fetch_deps_first_digit_run_counterexample :
    get_repo_deps_via_github (DepsPage.ok 200 ["5 Packages 1,234 Repositories"]) = 5 ∧
    substrIn ("1,234 Repositories".data) ("5 Packages 1,234 Repositories".data) = true ∧
    (5 : Int) ≠ 1234 :=
  ⟨rfl, rfl, by decide⟩

/-- C5 amended (proved): the fetcher parses the first `[0-9,]` run of the
first text node matching the phrase pattern, commas stripped — which is
the phrase's own number whenever no earlier digits occur in that node
(e.g. a node that is exactly `1,234 Repositories` gives 1234) — and
returns 0 in exactly the other cases: no node matches the pattern, the
HTTP status is not 200, or the fetch/parse raised. -/
theorem fetch_deps_amended_characterization :
    (get_repo_deps_via_github (DepsPage.ok 200 ["1,234 Repositories"]) = 1234) ∧
    (∀ nodes : List String, (∀ s ∈ nodes, hasRepoPattern s.data = false) →
      get_repo_deps_via_github (DepsPage.ok 200 nodes) = 0) ∧
    (∀ (st : Nat) (nodes : List String), st ≠ 200 →
      get_repo_deps_via_github (DepsPage.ok st nodes) = 0) ∧
    (get_repo_deps_via_github DepsPage.failure = 0) ∧
    (∀ page : DepsPage, get_repo_deps_via_github page ≠ 0 →
      ∃ nodes, page = DepsPage.ok 200 nodes ∧
        ∃ s ∈ nodes, hasRepoPattern s.data = true) := by
  refine ⟨rfl, ?_, ?_, rfl, ?_⟩
  · intro nodes h
    simp only [get_repo_deps_via_github]
    rw [if_neg (by omega), findNode_eq_none h]
  · intro st nodes h
    simp only [get_repo_deps_via_github]
    rw [if_pos h]
  · intro page h
    cases page with
    | failure => exact absurd rfl h
    | ok st nodes =>
      by_cases hst : st = 200
      · subst hst
        simp only [get_repo_deps_via_github] at h
        rw [if_neg (by omega)] at h
        cases hfn : findNode nodes with
        | none => rw [hfn] at h; exact absurd rfl h
        | some s =>
          obtain ⟨hmem, hpat⟩ := findNode_some hfn
          exact ⟨nodes, rfl, s, hmem, hpat⟩
      · simp only [get_repo_deps_via_github] at h
        rw [if_pos hst] at h
        exact absurd rfl h

/-- C5 witness: the amended characterization applied at concrete pages —
a phrase-free page, a non-200 status, and a nonzero result exposing its
matching node. -/
theorem fetch_deps_amended_characterization_witness :
    get_repo_deps_via_github (DepsPage.ok 200 ["no counts here"]) = 0 ∧
    get_repo_deps_via_github (DepsPage.ok 404 ["1,234 Repositories"]) = 0 ∧
    (∃ nodes, (DepsPage.ok 200 ["7 Repositories"] : DepsPage) = DepsPage.ok 200 nodes ∧
      ∃ s ∈ nodes, hasRepoPattern s.data = true) :=
  ⟨fetch_deps_amended_characterization.2.1 ["no counts here"] (by decide),
   fetch_deps_amended_characterization.2.2.1 404 ["1,234 Repositories"] (by decide),
   fetch_deps_amended_characterization.2.2.2.2 (DepsPage.ok 200 ["7 Repositories"])
     (by decide)⟩

/-- Step equation of the main loop: an already-seen id skips the token. -/
theorem aggLoop_skip (env : AggEnv) (seen : List String) (t : String)
    (rest : List String) (h : resolveToken env t ∈ seen) :
    aggLoop env seen (t :: rest) = aggLoop env seen rest := by
  simp only [aggLoop]
  rw [if_pos h]

/-- Step equation of the main loop: a fresh nonempty id emits a full row
and joins the seen set. -/
theorem aggLoop_new (env : AggEnv) (seen : List String) (t : String)
    (rest : List String) (h1 : resolveToken env t ∉ seen)
    (h2 : resolveToken env t ≠ "") :
    aggLoop env seen (t :: rest) =
      mkRow env t (resolveToken env t) ::
        aggLoop env (resolveToken env t :: seen) rest := by
  simp only [aggLoop]
  rw [if_neg h1, if_neg h2]

/-- Step equation of the main loop: an unresolvable token emits a
placeholder row and leaves the seen set unchanged. -/
theorem aggLoop_placeholder (env : AggEnv) (seen : List String) (t : String)
    (rest : List String) (h1 : resolveToken env t ∉ seen)
    (h2 : resolveToken env t = "") :
    aggLoop env seen (t :: rest) = phRow t :: aggLoop env seen rest := by
  simp only [aggLoop]
  rw [if_neg h1, if_pos h2]

/-- C4 (confirmed): with the candidate list built as declared-home-page
first followed by the named-URL mapping's values in mapping order, the
first candidate that is truthy and contains the hosting-domain marker
case-insensitively and whose parse is nonempty determines the result,
whatever candidates follow it (`post` is universally quantified, so no
later candidate is consulted). -/
theorem pypi_first_marker_candidate_short_circuits
    (home : String) (purls : List (String × String)) (pre post : List String)
    (c : String) (hsplit : home :: purls.map Prod.snd = pre ++ c :: post)
    (hpre : ∀ u ∈ pre, ¬(u ≠ "" ∧ ghMarker u = true))
    (hc : c ≠ "") (hm : ghMarker c = true) (hp : parse_github_repo c ≠ "") :
    get_github_repo_from_pypi (PypiResponse.ok 200 ⟨home, purls⟩) =
      parse_github_repo c := by
  simp only [get_github_repo_from_pypi]
  rw [if_pos trivial, hsplit, scanUrls_append_skip hpre]
  simp only [scanUrls]
  rw [if_pos ⟨hc, hm⟩, if_pos hp]

/-- C4 witness: the theorem applied with the home page as the first and
only marker candidate and one further candidate left unscanned. -/
theorem pypi_first_marker_candidate_short_circuits_witness :
    get_github_repo_from_pypi (PypiResponse.ok 200
        ⟨"https://github.com/numpy/numpy",
          [("Source", "https://github.com/pandas-dev/pandas")]⟩) =
      parse_github_repo "https://github.com/numpy/numpy" :=
  pypi_first_marker_candidate_short_circuits "https://github.com/numpy/numpy"
    [("Source", "https://github.com/pandas-dev/pandas")] []
    ["https://github.com/pandas-dev/pandas"] "https://github.com/numpy/numpy"
    rfl (by simp) (by decide) (by decide) (by decide)

/-- C8 (confirmed): the fallback endpoint is consulted exactly when the
registry step yields `""` and the credential is truthy — a nonempty
registry result or a falsy credential makes the result the registry
result, independent of the fallback data — and an attempted fallback with
a present, marker-matching `repository_url` returns the Parser's result on
that url. -/
theorem resolver_fallback_gating (pypi : PypiResponse) (cred : Option String)
    (lib : LibResponse) :
    (get_github_repo_from_pypi pypi ≠ "" →
      resolve_github_repo_from_package pypi cred lib =
        get_github_repo_from_pypi pypi) ∧
    (credTruthy cred = false →
      resolve_github_repo_from_package pypi cred lib =
        get_github_repo_from_pypi pypi) ∧
    (get_github_repo_from_pypi pypi = "" → credTruthy cred = true →
      resolve_github_repo_from_package pypi cred lib =
        get_github_repo_from_librariesio lib) ∧
    (∀ url : String, url ≠ "" → ghMarker url = true →
      get_github_repo_from_librariesio (LibResponse.ok 200 url) =
        parse_github_repo url) := by
  refine ⟨?_, ?_, ?_, ?_⟩
  · intro h
    unfold resolve_github_repo_from_package
    rw [if_neg fun hand => h hand.1]
  · intro h
    unfold resolve_github_repo_from_package
    rw [if_neg (by simp [h])]
  · intro h1 h2
    unfold resolve_github_repo_from_package
    rw [if_pos ⟨h1, h2⟩]
  · intro url h1 h2
    simp only [get_github_repo_from_librariesio]
    rw [if_pos trivial, if_pos ⟨h1, h2⟩]
    split_ifs with h3
    · rfl
    · exact (not_not.mp h3).symm

/-- C8 witness: the gating theorem applied at concrete responses — a
registry hit, a falsy credential, an attempted fallback, and a
marker-matching `repository_url`. -/
theorem resolver_fallback_gating_witness :
    resolve_github_repo_from_package
        (PypiResponse.ok 200 ⟨"https://github.com/numpy/numpy", []⟩) none
        LibResponse.failure =
      get_github_repo_from_pypi
        (PypiResponse.ok 200 ⟨"https://github.com/numpy/numpy", []⟩) ∧
    resolve_github_repo_from_package PypiResponse.failure none
        LibResponse.failure = get_github_repo_from_pypi PypiResponse.failure ∧
    resolve_github_repo_from_package PypiResponse.failure (some "key")
        (LibResponse.ok 200 "https://github.com/pandas-dev/pandas") =
      get_github_repo_from_librariesio
        (LibResponse.ok 200 "https://github.com/pandas-dev/pandas") ∧
    get_github_repo_from_librariesio
        (LibResponse.ok 200 "https://github.com/pandas-dev/pandas") =
      parse_github_repo "https://github.com/pandas-dev/pandas" :=
  ⟨(resolver_fallback_gating
      (PypiResponse.ok 200 ⟨"https://github.com/numpy/numpy", []⟩) none
      LibResponse.failure).1 (by decide),
   (resolver_fallback_gating PypiResponse.failure none LibResponse.failure).2.1
     (by decide),
   (resolver_fallback_gating PypiResponse.failure (some "key")
      (LibResponse.ok 200 "https://github.com/pandas-dev/pandas")).2.2.1
     (by decide) (by decide),
   (resolver_fallback_gating PypiResponse.failure (some "key")
      (LibResponse.ok 200 "https://github.com/pandas-dev/pandas")).2.2.2
     "https://github.com/pandas-dev/pandas" (by decide) (by decide)⟩

/-- C7 (confirmed): a token whose resolved id is nonempty and already in
the seen set is dropped entirely — the loop output equals the loop output
without the token, so no row and no name merge — and end-to-end,
aggregating `"numpy, https://github.com/numpy/numpy"` (with the package
name resolving to `numpy/numpy`) yields exactly the one row named after
the first-seen token. -/
theorem aggregate_drops_duplicate_resolved_tokens :
    (∀ (env : AggEnv) (seen : List String) (t : String) (rest : List String),
      resolveToken env t ≠ "" → resolveToken env t ∈ seen →
      aggLoop env seen (t :: rest) = aggLoop env seen rest) ∧
    (∀ rp f, rp "numpy" = "numpy/numpy" →
      aggregate_statistics ⟨rp, f⟩ "numpy, https://github.com/numpy/numpy" =
        Except.ok [⟨"numpy", some (f "numpy/numpy"),
          some "https://github.com/numpy/numpy",
          some "https://github.com/numpy/numpy/network/dependents"⟩]) := by
  constructor
  · intro env seen t rest _ h2
    exact aggLoop_skip env seen t rest h2
  · intro rp f h
    have h1 : resolveToken ⟨rp, f⟩ "numpy" = "numpy/numpy" := by
      unfold resolveToken
      rw [if_pos (show parse_github_repo "numpy" = "" from rfl)]
      exact h
    have h2 : resolveToken ⟨rp, f⟩ "https://github.com/numpy/numpy" =
        "numpy/numpy" := by
      unfold resolveToken
      rw [if_neg (by decide)]
      rfl
    show sort_values_desc (aggLoop ⟨rp, f⟩ []
      (tokenize "numpy, https://github.com/numpy/numpy")) = _
    rw [show tokenize "numpy, https://github.com/numpy/numpy" =
      ["numpy", "https://github.com/numpy/numpy"] from rfl]
    rw [aggLoop_new ⟨rp, f⟩ [] "numpy" _ (by rw [h1]; simp) (by rw [h1]; decide)]
    rw [h1]
    rw [aggLoop_skip ⟨rp, f⟩ ["numpy/numpy"] "https://github.com/numpy/numpy" []
      (by rw [h2]; simp)]
    rfl

/-- C7 witness: the drop rule applied at a concrete seen set, and the
end-to-end deduplication example with concrete oracles. -/
theorem aggregate_drops_duplicate_resolved_tokens_witness :
    aggLoop ⟨fun _ => "", fun _ => 0⟩ ["a/b"] ["a/b"] =
      aggLoop ⟨fun _ => "", fun _ => 0⟩ ["a/b"] [] ∧
    aggregate_statistics ⟨fun _ => "numpy/numpy", fun _ => 7⟩
        "numpy, https://github.com/numpy/numpy" =
      Except.ok [⟨"numpy", some 7, some "https://github.com/numpy/numpy",
        some "https://github.com/numpy/numpy/network/dependents"⟩] :=
  ⟨aggregate_drops_duplicate_resolved_tokens.1 ⟨fun _ => "", fun _ => 0⟩ ["a/b"]
      "a/b" [] (by decide) (by decide),
   aggregate_drops_duplicate_resolved_tokens.2 (fun _ => "numpy/numpy")
     (fun _ => 7) rfl⟩

/-- C10 (confirmed, implicit claim): the seen set never contains the empty
id (only nonempty ids are added), so deduplication never applies to
unresolvable tokens: each such token emits its own placeholder row, and a
repeated unresolvable token — here `"foo, foo"` with a resolver returning
`""` — emits one placeholder row per occurrence. -/
theorem unresolvable_tokens_never_deduplicated :
    (∀ (env : AggEnv) (seen : List String) (t : String) (rest : List String),
      resolveToken env t = "" → "" ∉ seen →
      aggLoop env seen (t :: rest) = phRow t :: aggLoop env seen rest) ∧
    (∀ rp f, rp "foo" = "" →
      aggregate_statistics ⟨rp, f⟩ "foo, foo" =
        Except.ok [phRow "foo", phRow "foo"]) := by
  constructor
  · intro env seen t rest h1 h2
    exact aggLoop_placeholder env seen t rest (by rw [h1]; exact h2) h1
  · intro rp f h
    have h1 : resolveToken ⟨rp, f⟩ "foo" = "" := by
      unfold resolveToken
      rw [if_pos (show parse_github_repo "foo" = "" from rfl)]
      exact h
    show sort_values_desc (aggLoop ⟨rp, f⟩ [] (tokenize "foo, foo")) = _
    rw [show tokenize "foo, foo" = ["foo", "foo"] from rfl]
    rw [aggLoop_placeholder ⟨rp, f⟩ [] "foo" _ (by rw [h1]; simp) h1]
    rw [aggLoop_placeholder ⟨rp, f⟩ [] "foo" _ (by rw [h1]; simp) h1]
    rfl

/-- C10 witness: the placeholder rule applied with a nonempty seen set,
and the end-to-end repeated-unresolvable-token example with concrete
oracles. -/
theorem unresolvable_tokens_never_deduplicated_witness :
    aggLoop ⟨fun _ => "", fun _ => 0⟩ ["a/b"] ["zzz"] = [phRow "zzz"] ∧
    aggregate_statistics ⟨fun _ => "", fun _ => 0⟩ "foo, foo" =
      Except.ok [phRow "foo", phRow "foo"] :=
  ⟨unresolvable_tokens_never_deduplicated.1 ⟨fun _ => "", fun _ => 0⟩ ["a/b"]
      "zzz" [] (by decide) (by decide),
   unresolvable_tokens_never_deduplicated.2 (fun _ => "") (fun _ => 0) rfl⟩

/-- C2 counterexample (claim false as stated): the default
`kind='quicksort'` argsort is not stable above numpy's insertion-sort
regime — aggregating 17 tokens whose repositories all have 5 dependents
emits the rows in the partition-permuted order `tieNamesPermuted`, not in
original input order as the stable-sort clause demands (the spec-ordered
table for the same loop output is the input-order one). -/
theorem aggregate_sort_tie_instability_counterexample :
    aggregate_statistics ⟨fun _ => "", fun _ => 5⟩
        "a01/r a02/r a03/r a04/r a05/r a06/r a07/r a08/r a09/r a10/r a11/r a12/r a13/r a14/r a15/r a16/r a17/r" =
      Except.ok (tieNamesPermuted.map tieRow) ∧
    specSortRows (aggLoop ⟨fun _ => "", fun _ => 5⟩ [] (tokenize
        "a01/r a02/r a03/r a04/r a05/r a06/r a07/r a08/r a09/r a10/r a11/r a12/r a13/r a14/r a15/r a16/r a17/r")) =
      tieNames.map tieRow ∧
    tieNamesPermuted.map tieRow ≠ tieNames.map tieRow :=
  ⟨rfl, rfl, by decide⟩

/-- C2 amended (proved): the table is sorted by count descending with
unknown-count rows last and ties in original input order whenever at most
16 rows have a known count (numpy's stable insertion-sort regime for the
default quicksort argsort — above it ties may be reordered, see the
counterexample); under that bound every nonerror aggregate output equals
the spec ordering; the counts `[5, 0, unknown, 12]` come out as
`12, 5, 0, unknown`; and two equal counts keep the original input
order. -/
theorem aggregate_sort_spec_ordering_in_stable_regime :
    (∀ rows : List ResultRow, (knownRows rows).length ≤ 16 →
      sortRowsDesc rows = specSortRows rows) ∧
    (∀ (env : AggEnv) (input : String),
      aggLoop env [] (tokenize input) ≠ [] →
      (knownRows (aggLoop env [] (tokenize input))).length ≤ 16 →
      aggregate_statistics env input =
        Except.ok (specSortRows (aggLoop env [] (tokenize input)))) ∧
    (aggregate_statistics
        ⟨fun _ => "", fun g => if g = "a/b" then 5 else if g = "c/d" then 0 else 12⟩
        "a/b c/d e f/g" =
      Except.ok
        [⟨"f/g", some 12, some "https://github.com/f/g",
            some "https://github.com/f/g/network/dependents"⟩,
          ⟨"a/b", some 5, some "https://github.com/a/b",
            some "https://github.com/a/b/network/dependents"⟩,
          ⟨"c/d", some 0, some "https://github.com/c/d",
            some "https://github.com/c/d/network/dependents"⟩,
          ⟨"e", none, none, none⟩]) ∧
    (aggregate_statistics ⟨fun _ => "", fun _ => 5⟩ "a/b c/d" =
      Except.ok
        [⟨"a/b", some 5, some "https://github.com/a/b",
            some "https://github.com/a/b/network/dependents"⟩,
          ⟨"c/d", some 5, some "https://github.com/c/d",
            some "https://github.com/c/d/network/dependents"⟩]) := by
  refine ⟨fun rows h => sortRowsDesc_eq_specSortRows_of_small h, ?_, rfl, rfl⟩
  intro env input h hk
  unfold aggregate_statistics sort_values_desc
  rw [if_neg fun hc => h (by simpa using hc),
    sortRowsDesc_eq_specSortRows_of_small hk]

/-- C2 witness: the stable-regime output conjunct applied at a concrete
environment and input. -/
theorem aggregate_sort_spec_ordering_in_stable_regime_witness :
    aggregate_statistics ⟨fun _ => "", fun _ => 3⟩ "x/y" =
      Except.ok (specSortRows
        (aggLoop ⟨fun _ => "", fun _ => 3⟩ [] (tokenize "x/y"))) :=
  aggregate_sort_spec_ordering_in_stable_regime.2.1 ⟨fun _ => "", fun _ => 3⟩
    "x/y" (by decide) (by decide)

end TopPythonLibs
